import Mathlib

/-!
Shallow embedding of the breakpoint broadcast utility
(`useScreenSize` + module-level media-query subscription registry).

The source keeps a module-level mutable array `handlers : Handle[]`;
`subscribe` pushes onto it, `unsubscribe` reassigns it to a fresh
filtered array, and each of four `MediaQueryList` change listeners runs
`handlers.forEach(handler => handler())` when the query transitions into
a matching state.  Handles are compared by reference identity, so we
model them as natural numbers with decidable equality.
-/

/-- A callback handle, identified by reference identity. -/
abbrev Handle := ℕ

/-- The module-level listener registry: an ordered list of handles. -/
abbrev Registry := List Handle

/-- `subscribe` appends the handle: `handlers.push(handler)`. -/
def subscribe (handler : Handle) (handlers : Registry) : Registry :=
  handlers ++ [handler]

/-- `unsubscribe` reassigns the registry to a fresh array keeping the
handles different from `handler`:
`handlers = handlers.filter(item => item !== handler)`. -/
def unsubscribe (handler : Handle) (handlers : Registry) : Registry :=
  handlers.filter (fun item => item != handler)

/-- The four `MediaQueryList` objects constructed at module load
(when `window` is defined). -/
inductive Query where
  | xsmall
  | small
  | medium
  | large
deriving DecidableEq, Repr

/-- `matches` of each query at viewport width `w` (CSS pixels, a real
length, modelled as a rational).  Thresholds are the exact constants of
the source media-query strings:
`(max-width: 599.99px)`, `(min-width: 600px) and (max-width: 959.99px)`,
`(min-width: 960px) and (max-width: 1279.99px)`, `(min-width: 1280px)`. -/
def queryMatches : Query → ℚ → Bool
  | .xsmall, w => decide (w ≤ 599.99)
  | .small, w => decide (600 ≤ w ∧ w ≤ 959.99)
  | .medium, w => decide (960 ≤ w ∧ w ≤ 1279.99)
  | .large, w => decide (1280 ≤ w)

/-- The queries that get a change listener attached at module load.
The `if (typeof window !== 'undefined')` guard means none is constructed
when the environment has no window. -/
def attachedQueries (windowPresent : Bool) : List Query :=
  if windowPresent then [.xsmall, .small, .medium, .large] else []

/-- The breakpoint record returned by `getScreenSize`.  Each field is
`media?.matches`: `none` models the `undefined` produced by optional
chaining when the query object was never constructed. -/
structure BreakpointSet where
  isXSmall : Option Bool
  isSmall : Option Bool
  isMedium : Option Bool
  isLarge : Option Bool
deriving DecidableEq, Repr

/-- `getScreenSize` reads `matches` of the four module-level query
objects.  The environment is `none` when there is no window (no query
objects, all fields `undefined`) and `some w` when a window with
viewport width `w` is present. -/
def getScreenSize (window : Option ℚ) : BreakpointSet :=
  match window with
  | none => ⟨none, none, none, none⟩
  | some w =>
      ⟨some (queryMatches .xsmall w), some (queryMatches .small w),
       some (queryMatches .medium w), some (queryMatches .large w)⟩

/-- How many of the four flags are `true`. -/
def trueFlags (b : BreakpointSet) : ℕ :=
  [b.isXSmall, b.isSmall, b.isMedium, b.isLarge].count (some true)

/-- A registry mutation a handle may perform while it runs: the only
mutations of the module state are calls to `subscribe` and
`unsubscribe`. -/
inductive RegAction where
  | sub (h : Handle)
  | unsub (h : Handle)
deriving DecidableEq, Repr

/-- Apply one registry mutation. -/
def applyAction (handlers : Registry) : RegAction → Registry
  | .sub h => subscribe h handlers
  | .unsub h => unsubscribe h handlers

/-- Run one handle: its behaviour is the list of registry mutations it
performs during its invocation, given by the environment `effects`. -/
def runHandler (effects : Handle → List RegAction) (h : Handle)
    (handlers : Registry) : Registry :=
  (effects h).foldl applyAction handlers

/-- The dispatch loop `handlers.forEach(handler => handler())`, run over
the snapshot `pending` of the array captured when the loop started,
threading the live registry through the invocations.  This models the
JS semantics faithfully: `unsubscribe` reassigns the module variable to
a fresh filtered array, so the running `forEach` keeps iterating the
captured array unchanged; `subscribe` pushes in place, but `forEach`
never visits elements appended after it started (the range of elements
processed is fixed before the first callback).  Returns the invocation
trace (in invocation order) and the final registry. -/
def runDispatch (effects : Handle → List RegAction) :
    List Handle → Registry → List Handle × Registry
  | [], handlers => ([], handlers)
  | g :: pending, handlers =>
      let next := runDispatch effects pending (runHandler effects g handlers)
      (g :: next.1, next.2)

/-- One change notification: the media listener body fires every handle
of the registry as it is when the notification starts. -/
def dispatch (effects : Handle → List RegAction) (handlers : Registry) :
    List Handle × Registry :=
  runDispatch effects handlers handlers

/-- Handles that perform no registry mutation when invoked (the app's
actual handles only call `setScreenSize`). -/
def noEffects : Handle → List RegAction := fun _ => []

/-- The queries whose match state flips from `false` to `true` when the
viewport goes from width `w` to width `w'`.  A `MediaQueryList` change
event fires exactly when the match state flips, and the listener body
`if (e.matches) { handlers.forEach(...) }` dispatches only on the
flips into the matching state. -/
def inTransitions (windowPresent : Bool) (w w' : ℚ) : List Query :=
  (attachedQueries windowPresent).filter
    (fun q => !queryMatches q w && queryMatches q w')

/-- A viewport resize from `w` to `w'`: each query that transitions
into matching fires one dispatch over the then-current registry.
Returns the concatenated invocation trace and the final registry. -/
def resize (effects : Handle → List RegAction) (windowPresent : Bool)
    (w w' : ℚ) (handlers : Registry) : List Handle × Registry :=
  (inTransitions windowPresent w w').foldl
    (fun acc _ =>
      let d := dispatch effects acc.2
      (acc.1 ++ d.1, d.2))
    ([], handlers)

/-- An arbitrary sequence of resize events. -/
def runResizes (effects : Handle → List RegAction) (windowPresent : Bool)
    (events : List (ℚ × ℚ)) (handlers : Registry) : List Handle × Registry :=
  events.foldl
    (fun acc e =>
      let d := resize effects windowPresent e.1 e.2 acc.2
      (acc.1 ++ d.1, d.2))
    ([], handlers)

/-! ### Helper lemmas -/

lemma mem_unsubscribe {a h : Handle} {handlers : Registry} :
    a ∈ unsubscribe h handlers ↔ a ∈ handlers ∧ a ≠ h := by
  simp [unsubscribe, List.mem_filter]

lemma runDispatch_fst (effects : Handle → List RegAction) :
    ∀ (pending : List Handle) (handlers : Registry),
      (runDispatch effects pending handlers).1 = pending := by
  intro pending
  induction pending with
  | nil => intro handlers; rfl
  | cons g rest ih =>
      intro handlers
      simp [runDispatch, ih]

lemma runHandler_noEffects (h : Handle) (handlers : Registry) :
    runHandler noEffects h handlers = handlers := rfl

lemma runDispatch_snd_noEffects :
    ∀ (pending : List Handle) (handlers : Registry),
      (runDispatch noEffects pending handlers).2 = handlers := by
  intro pending
  induction pending with
  | nil => intro handlers; rfl
  | cons g rest ih =>
      intro handlers
      simp [runDispatch, runHandler_noEffects, ih]

lemma dispatch_noEffects (handlers : Registry) :
    dispatch noEffects handlers = (handlers, handlers) := by
  unfold dispatch
  exact Prod.ext (runDispatch_fst noEffects handlers handlers)
    (runDispatch_snd_noEffects handlers handlers)

/-! ### C2: unsubscribe after subscribe removes all occurrences -/

/-- C2.  For every registry state and handle `h`, `unsubscribe h` right
after `subscribe h` leaves a registry not containing `h`: the filter
removes the pushed occurrence and every occurrence already present. -/
theorem subscribe_then_unsubscribe_removes (handlers : Registry) (h : Handle) :
    h ∉ unsubscribe h (subscribe h handlers) := by
  intro hmem
  exact (mem_unsubscribe.mp hmem).2 rfl

/-! ### C3: unsubscribing an absent handle is a no-op -/

/-- C3.  If `h` does not occur in the registry, `unsubscribe h` returns
the registry unchanged — the same handles in the same order — and, being
a total filter, signals no error. -/
theorem unsubscribe_absent_is_noop (handlers : Registry) (h : Handle)
    (habs : h ∉ handlers) :
    unsubscribe h handlers = handlers := by
  apply List.filter_eq_self.mpr
  intro a ha
  simp only [bne_iff_ne, ne_eq, decide_eq_true_eq]
  intro heq
  exact habs (heq ▸ ha)

/-- Witness for C3 at the concrete registry `[1, 2]` and handle `3`. -/
theorem unsubscribe_absent_is_noop_witness :
    unsubscribe 3 [1, 2] = [1, 2] :=
  unsubscribe_absent_is_noop [1, 2] 3 (by decide)

/-! ### More helper lemmas: resize folds -/

lemma inTransitions_no_window (w w' : ℚ) : inTransitions false w w' = [] := rfl

lemma resize_no_window (effects : Handle → List RegAction) (w w' : ℚ)
    (handlers : Registry) : resize effects false w w' handlers = ([], handlers) := rfl

lemma runResizes_no_window (effects : Handle → List RegAction)
    (events : List (ℚ × ℚ)) (handlers : Registry) :
    runResizes effects false events handlers = ([], handlers) := by
  have key : ∀ (evs : List (ℚ × ℚ)) (tr : List Handle) (hs : Registry),
      evs.foldl
        (fun acc e =>
          let d := resize effects false e.1 e.2 acc.2
          (acc.1 ++ d.1, d.2))
        (tr, hs) = (tr, hs) := by
    intro evs
    induction evs with
    | nil => intro tr hs; rfl
    | cons e rest ih =>
        intro tr hs
        simp [resize_no_window, ih tr hs]
  exact key events [] handlers

lemma resize_noEffects_foldl :
    ∀ (qs : List Query) (tr : List Handle) (hs : Registry),
      qs.foldl
        (fun acc _ =>
          let d := dispatch noEffects acc.2
          (acc.1 ++ d.1, d.2))
        (tr, hs) = (tr ++ (List.replicate qs.length hs).flatten, hs) := by
  intro qs
  induction qs with
  | nil => intro tr hs; simp
  | cons q rest ih =>
      intro tr hs
      simp only [List.foldl_cons, List.length_cons, List.replicate_succ,
        List.flatten_cons]
      simpa [dispatch_noEffects, List.append_assoc] using ih (tr ++ hs) hs

lemma resize_noEffects_eq (w w' : ℚ) (handlers : Registry) :
    resize noEffects true w w' handlers
      = ((List.replicate (inTransitions true w w').length handlers).flatten, handlers) := by
  unfold resize
  rw [resize_noEffects_foldl]
  simp

/-! ### C4: no window means a fully inert broadcaster -/

/-- C4.  In an environment with no window, `getScreenSize` does not
throw and returns all four flags `undefined` (the optional chaining on
never-constructed query objects), the four media queries are never
constructed, and no sequence of resize events ever invokes any handle
(the invocation trace of any event sequence is empty), whatever the
registry and whatever the handles would do. -/
theorem no_window_degrades_inert (effects : Handle → List RegAction)
    (events : List (ℚ × ℚ)) (handlers : Registry) :
    getScreenSize none = ⟨none, none, none, none⟩ ∧
    attachedQueries false = [] ∧
    (runResizes effects false events handlers).1 = [] := by
  refine ⟨rfl, rfl, ?_⟩
  rw [runResizes_no_window]

/-! ### C5: a matching transition fires every registered handle -/

/-- C5.  Whenever any of the four queries transitions into a matching
state during a resize, the listener fires the whole registry: the
invocation trace of the resize is one full copy of the registry, in
registration order, per transitioning query — no filtering by which
query changed, no payload, and the invocations are sequenced one after
another (the trace is the sequential concatenation).  The registry is
unchanged when the handles themselves do not mutate it, and a single
dispatch invokes exactly the registered handles in order whatever the
handles do. -/
theorem notification_fires_all_handles_in_order
    (effects : Handle → List RegAction) (w w' : ℚ) (handlers : Registry) :
    (dispatch effects handlers).1 = handlers ∧
    (resize noEffects true w w' handlers).1
        = (List.replicate (inTransitions true w w').length handlers).flatten ∧
    (resize noEffects true w w' handlers).2 = handlers := by
  rw [resize_noEffects_eq]
  exact ⟨runDispatch_fst effects handlers handlers, rfl, rfl⟩

/-! ### C9: mid-dispatch unsubscribe cannot affect the ongoing dispatch -/

/-- C9.  The invocation trace of one dispatch equals the registry
captured when the dispatch started, whatever registry mutations the
invoked handles perform — in particular a handle that unsubscribes
itself or any other handle during the dispatch does not change the set
of handles invoked in that dispatch, because `unsubscribe` reassigns
the module variable to a fresh filtered array while `forEach` keeps
iterating the captured array. -/
theorem mid_dispatch_unsubscribe_does_not_affect_trace
    (effects : Handle → List RegAction) (handlers : Registry) :
    (dispatch effects handlers).1 = handlers :=
  runDispatch_fst effects handlers handlers

/-! ### Threshold arithmetic over integer pixel widths -/

lemma natCast_le_hundredths (n a : ℕ) : ((n : ℚ) ≤ (a : ℚ) / 100) ↔ n * 100 ≤ a := by
  rw [le_div_iff₀ (by norm_num : (0 : ℚ) < 100)]
  exact_mod_cast Iff.rfl

lemma nat_le_xsmall_max (n : ℕ) : ((n : ℚ) ≤ 599.99) ↔ n < 600 := by
  rw [show (599.99 : ℚ) = (59999 : ℕ) / 100 by norm_num, natCast_le_hundredths]
  omega

lemma nat_le_small_max (n : ℕ) : ((n : ℚ) ≤ 959.99) ↔ n < 960 := by
  rw [show (959.99 : ℚ) = (95999 : ℕ) / 100 by norm_num, natCast_le_hundredths]
  omega

lemma nat_le_medium_max (n : ℕ) : ((n : ℚ) ≤ 1279.99) ↔ n < 1280 := by
  rw [show (1279.99 : ℚ) = (127999 : ℕ) / 100 by norm_num, natCast_le_hundredths]
  omega

lemma nat_threshold_le (n a : ℕ) : ((a : ℚ) ≤ (n : ℚ)) ↔ a ≤ n := by
  exact_mod_cast Iff.rfl

/-! ### C1: breakpoint classification by width -/

/-- C1 fails as stated on fractional viewport widths: at width
599.995px — a width strictly below 600px — none of the four queries
matches (`599.995 ≤ 599.99` is false and `600 ≤ 599.995` is false), so
`isXSmall` is `false` although the claim requires `isXSmall` iff
`w < 600`, and no flag at all is true instead of exactly one. -/
theorem breakpoint_fractional_width_counterexample :
    (119999 / 200 : ℚ) < 600 ∧
    getScreenSize (some (119999 / 200 : ℚ))
      = ⟨some false, some false, some false, some false⟩ ∧
    trueFlags (getScreenSize (some (119999 / 200 : ℚ))) ≠ 1 := by
  have hg : getScreenSize (some (119999 / 200 : ℚ))
      = ⟨some false, some false, some false, some false⟩ := by
    simp only [getScreenSize, queryMatches]
    norm_num
  refine ⟨by norm_num, hg, ?_⟩
  rw [hg]
  decide

/-- C1 (amended to whole-pixel widths).  For every integer viewport
width `n` (with the media-query engine present) the breakpoint flags
are exactly the claimed classification — `isXSmall` iff `n < 600`,
`isSmall` iff `600 ≤ n < 960`, `isMedium` iff `960 ≤ n < 1280`,
`isLarge` iff `1280 ≤ n` — hence exactly one of the four flags is true;
in particular at 500px the result is
`{isXSmall: true, isSmall: false, isMedium: false, isLarge: false}` and
at 1920px it is
`{isXSmall: false, isSmall: false, isMedium: false, isLarge: true}`. -/
theorem breakpoint_classification_integer_widths (n : ℕ) :
    getScreenSize (some (n : ℚ)) =
      ⟨some (decide (n < 600)), some (decide (600 ≤ n ∧ n < 960)),
       some (decide (960 ≤ n ∧ n < 1280)), some (decide (1280 ≤ n))⟩ ∧
    trueFlags (getScreenSize (some (n : ℚ))) = 1 ∧
    getScreenSize (some 500) = ⟨some true, some false, some false, some false⟩ ∧
    getScreenSize (some 1920) = ⟨some false, some false, some false, some true⟩ := by
  have h600 : ((600 : ℚ) ≤ (n : ℚ)) ↔ 600 ≤ n := by exact_mod_cast Iff.rfl
  have h960 : ((960 : ℚ) ≤ (n : ℚ)) ↔ 960 ≤ n := by exact_mod_cast Iff.rfl
  have h1280 : ((1280 : ℚ) ≤ (n : ℚ)) ↔ 1280 ≤ n := by exact_mod_cast Iff.rfl
  have hclass : getScreenSize (some (n : ℚ)) =
      ⟨some (decide (n < 600)), some (decide (600 ≤ n ∧ n < 960)),
       some (decide (960 ≤ n ∧ n < 1280)), some (decide (1280 ≤ n))⟩ := by
    simp only [getScreenSize, queryMatches, BreakpointSet.mk.injEq]
    exact ⟨congrArg some (decide_eq_decide.mpr (nat_le_xsmall_max n)),
      congrArg some (decide_eq_decide.mpr (and_congr h600 (nat_le_small_max n))),
      congrArg some (decide_eq_decide.mpr (and_congr h960 (nat_le_medium_max n))),
      congrArg some (decide_eq_decide.mpr h1280)⟩
  have hcount : trueFlags (getScreenSize (some (n : ℚ))) = 1 := by
    rw [hclass]
    simp only [trueFlags, List.count_cons, List.count_nil, beq_iff_eq,
      Option.some.injEq, decide_eq_true_eq]
    split_ifs <;> omega
  refine ⟨hclass, hcount, ?_, ?_⟩ <;>
    · simp only [getScreenSize, queryMatches]
      norm_num

/-! ### C6: the 500px to 1920px transition -/

lemma inTransitions_500_1920 : inTransitions true 500 1920 = [Query.large] := by
  simp only [inTransitions, attachedQueries, if_true, List.filter_cons,
    List.filter_nil, queryMatches]
  norm_num

/-- C6.  On the resize from 500px to 1920px exactly one query
transitions into a matching state (the large one: `xsmall` leaves its
matching state, `small` and `medium` match at neither width), every
handle subscribed at that time is invoked exactly once per
transitioning query — the whole trace is one copy of the registry, so
each handle's invocation count equals its registration count — and the
re-read the reactive binding performs afterwards reports
`isLarge: true`. -/
theorem transition_500_to_1920 (handlers : Registry) (h : Handle) :
    inTransitions true 500 1920 = [Query.large] ∧
    (resize noEffects true 500 1920 handlers).1 = handlers ∧
    (resize noEffects true 500 1920 handlers).1.count h = handlers.count h ∧
    (getScreenSize (some 1920)).isLarge = some true := by
  have hres : (resize noEffects true 500 1920 handlers).1 = handlers := by
    rw [resize_noEffects_eq, inTransitions_500_1920]
    simp
  have hread : getScreenSize (some 1920)
      = ⟨some false, some false, some false, some true⟩ := by
    simp only [getScreenSize, queryMatches]
    norm_num
  exact ⟨inTransitions_500_1920, hres, by rw [hres], by rw [hread]⟩

/-! ### C7: the at-most-once invariant -/

/-- C7 fails as stated: `subscribe` performs no deduplication, so it
does not preserve the at-most-once invariant when the handle is
already registered — from the singleton registry `[0]`, `subscribe 0`
produces `[0, 0]`. -/
theorem uniqueness_not_preserved_by_subscribe :
    ([0] : Registry).Nodup ∧ ¬ (subscribe 0 [0]).Nodup := by
  decide

lemma unsubscribe_nodup (h : Handle) {handlers : Registry}
    (hnd : handlers.Nodup) : (unsubscribe h handlers).Nodup :=
  hnd.filter _

lemma subscribe_nodup {h : Handle} {handlers : Registry}
    (hnd : handlers.Nodup) (habs : h ∉ handlers) :
    (subscribe h handlers).Nodup := by
  simp [subscribe, List.nodup_append, hnd, habs]

lemma foldl_unsub_nodup :
    ∀ (acts : List RegAction) (hs : Registry),
      (∀ a ∈ acts, ∃ x, a = RegAction.unsub x) → hs.Nodup →
      (acts.foldl applyAction hs).Nodup := by
  intro acts
  induction acts with
  | nil => intro hs _ hnd; exact hnd
  | cons a rest ih =>
      intro hs hall hnd
      rw [List.foldl_cons]
      apply ih
      · intro b hb
        exact hall b (List.mem_cons_of_mem a hb)
      · obtain ⟨x, hx⟩ := hall a (List.mem_cons_self a rest)
        rw [hx]
        exact unsubscribe_nodup x hnd

lemma runDispatch_unsub_nodup (effects : Handle → List RegAction)
    (hun : ∀ g, ∀ a ∈ effects g, ∃ x, a = RegAction.unsub x) :
    ∀ (pending : List Handle) (hs : Registry), hs.Nodup →
      (runDispatch effects pending hs).2.Nodup := by
  intro pending
  induction pending with
  | nil => intro hs hnd; exact hnd
  | cons g rest ih =>
      intro hs hnd
      simp only [runDispatch]
      exact ih _ (foldl_unsub_nodup (effects g) hs (hun g) hnd)

/-- C7 (amended).  The at-most-once invariant is preserved by
`unsubscribe` always, by `subscribe` exactly when the handle is not
already registered (no deduplication is performed, so subscribing an
already-present handle is the one operation that breaks it), and by a
notification dispatch whose handles only unsubscribe. -/
theorem registry_uniqueness_preservation (handlers : Registry) (h : Handle)
    (effects : Handle → List RegAction) (hnd : handlers.Nodup)
    (hun : ∀ g, ∀ a ∈ effects g, ∃ x, a = RegAction.unsub x) :
    (unsubscribe h handlers).Nodup ∧
    (h ∉ handlers → (subscribe h handlers).Nodup) ∧
    (dispatch effects handlers).2.Nodup :=
  ⟨unsubscribe_nodup h hnd, fun habs => subscribe_nodup hnd habs,
   runDispatch_unsub_nodup effects hun handlers handlers hnd⟩

/-- Witness for C7 (amended): registry `[1, 2]`, handle `3`, handles
that unsubscribe themselves during dispatch. -/
theorem registry_uniqueness_preservation_witness :
    (unsubscribe 3 [1, 2] : Registry).Nodup ∧
    (subscribe 3 [1, 2] : Registry).Nodup ∧
    (dispatch (fun g => [RegAction.unsub g]) [1, 2]).2.Nodup := by
  have hmain := registry_uniqueness_preservation [1, 2] 3
    (fun g => [RegAction.unsub g]) (by decide)
    (fun g a ha => ⟨g, by simpa using ha⟩)
  exact ⟨hmain.1, hmain.2.1 (by decide), hmain.2.2⟩

/-! ### C8: no deduplication, double invocation -/

/-- C8.  `subscribe` performs no deduplication: subscribing `h` twice
adds two occurrences of `h` (on top of any already present), and the
next notification dispatch then invokes `h` twice more than its
previous registration count — in particular twice when it was not
registered before. -/
theorem subscribe_no_dedup_double_invocation (handlers : Registry) (h : Handle) :
    (subscribe h (subscribe h handlers)).count h = handlers.count h + 2 ∧
    (dispatch noEffects (subscribe h (subscribe h handlers))).1.count h
      = handlers.count h + 2 := by
  have hc : (subscribe h (subscribe h handlers)).count h = handlers.count h + 2 := by
    simp [subscribe, List.count_append]
  refine ⟨hc, ?_⟩
  rw [dispatch_noEffects]
  exact hc

/-! ### C10: mid-dispatch subscribe is deferred to the next dispatch -/

lemma mem_foldl_actions {h : Handle} :
    ∀ (acts : List RegAction) (hs : Registry),
      RegAction.unsub h ∉ acts → h ∈ hs → h ∈ acts.foldl applyAction hs := by
  intro acts
  induction acts with
  | nil => intro hs _ hm; exact hm
  | cons a rest ih =>
      intro hs hnu hm
      rw [List.foldl_cons]
      apply ih
      · intro hmem
        exact hnu (List.mem_cons_of_mem a hmem)
      · cases a with
        | sub x =>
            show h ∈ hs ++ [x]
            exact List.mem_append_left _ hm
        | unsub x =>
            apply mem_unsubscribe.mpr
            refine ⟨hm, fun hex => hnu ?_⟩
            rw [hex]
            exact List.mem_cons_self _ _

lemma mem_after_sub_action {h : Handle} :
    ∀ (acts : List RegAction) (hs : Registry),
      RegAction.unsub h ∉ acts → RegAction.sub h ∈ acts →
      h ∈ acts.foldl applyAction hs := by
  intro acts
  induction acts with
  | nil =>
      intro hs _ habs
      exact absurd habs (List.not_mem_nil _)
  | cons a rest ih =>
      intro hs hnu hmem
      rw [List.foldl_cons]
      rcases List.mem_cons.mp hmem with heq | hrest
      · apply mem_foldl_actions rest _
          (fun c => hnu (List.mem_cons_of_mem a c))
        rw [← heq]
        show h ∈ hs ++ [h]
        exact List.mem_append_right _ (List.mem_singleton_self h)
      · exact ih _ (fun c => hnu (List.mem_cons_of_mem a c)) hrest

lemma runDispatch_snd_mem (effects : Handle → List RegAction) (h : Handle)
    (hnu : ∀ g, RegAction.unsub h ∉ effects g) :
    ∀ (pending : List Handle) (hs : Registry),
      (h ∈ hs ∨ ∃ g ∈ pending, RegAction.sub h ∈ effects g) →
      h ∈ (runDispatch effects pending hs).2 := by
  intro pending
  induction pending with
  | nil =>
      intro hs hcase
      rcases hcase with hm | ⟨g, hg, _⟩
      · exact hm
      · exact absurd hg (List.not_mem_nil g)
  | cons g rest ih =>
      intro hs hcase
      simp only [runDispatch, runHandler]
      rcases hcase with hm | ⟨g', hg', hsub⟩
      · exact ih _ (Or.inl (mem_foldl_actions (effects g) hs (hnu g) hm))
      · rcases List.mem_cons.mp hg' with heq | hrest
        · subst heq
          exact ih _ (Or.inl (mem_after_sub_action (effects g') hs (hnu g') hsub))
        · exact ih _ (Or.inr ⟨g', hrest, hsub⟩)

/-- C10.  If, during a dispatch, an invoked handle subscribes a new
handle `h` (and no handle unsubscribes it), then `h` is not invoked in
that same dispatch — the loop iterates only the elements present when
it began — but `h` ends up in the registry, so the next notification,
whatever the handles do then, invokes `h`. -/
theorem mid_dispatch_subscribe_deferred (effects : Handle → List RegAction)
    (handlers : Registry) (h : Handle)
    (hnew : h ∉ handlers)
    (hnu : ∀ g, RegAction.unsub h ∉ effects g)
    (hsub : ∃ g ∈ handlers, RegAction.sub h ∈ effects g) :
    h ∉ (dispatch effects handlers).1 ∧
    h ∈ (dispatch effects handlers).2 ∧
    ∀ effects2, h ∈ (dispatch effects2 (dispatch effects handlers).2).1 := by
  have htrace : (dispatch effects handlers).1 = handlers :=
    runDispatch_fst effects handlers handlers
  have hfin : h ∈ (dispatch effects handlers).2 :=
    runDispatch_snd_mem effects h hnu handlers handlers (Or.inr hsub)
  refine ⟨by rw [htrace]; exact hnew, hfin, fun effects2 => ?_⟩
  rw [show (dispatch effects2 (dispatch effects handlers).2).1
      = (dispatch effects handlers).2 from runDispatch_fst effects2 _ _]
  exact hfin

/-- Witness for C10: registry `[0]`, new handle `1`, the invoked handle
`0` subscribing `1` during the dispatch, a no-op second dispatch. -/
theorem mid_dispatch_subscribe_deferred_witness :
    (1 : Handle) ∉ (dispatch (fun _ => [RegAction.sub 1]) [0]).1 ∧
    (1 : Handle) ∈ (dispatch (fun _ => [RegAction.sub 1]) [0]).2 ∧
    (1 : Handle) ∈ (dispatch noEffects (dispatch (fun _ => [RegAction.sub 1]) [0]).2).1 := by
  have hmain := mid_dispatch_subscribe_deferred (fun _ => [RegAction.sub 1]) [0] 1
    (by decide) (fun g => by simp) ⟨0, by simp, by simp⟩
  exact ⟨hmain.1, hmain.2.1, hmain.2.2 noEffects⟩
